import Mathlib

/-!
Verification of a small interactive shell (src/shell.c).

The development shallowly embeds the three parts of the program that carry
design content:

* `tokenize` — the bounded strtok-based splitter (shell.c lines 31-52);
* `cdNewPath` / `cdRun` — the built-in directory-change handler
  (shell.c lines 58-158), with the OS calls `chdir` and `setenv`
  represented by explicit oracles;
* `dispatch` and the parent-side background decision of `main`
  (shell.c lines 167-324), including the byte-level expression
  `final_arg[strlen(final_arg - 1)]` used to decide wait-vs-job-notice.

Machine strings are `List Char` or `String`; the mutated input buffer of
`strtok` is modelled explicitly as a character list in which each delimiter
that terminates a token has been overwritten with the NUL character.
-/

set_option autoImplicit false

namespace Shell

/-- Capacity of the argument vector, `#define BIG_NUM 2048` in shell.c. -/
def BIG_NUM : Nat := 2048

/-- Longest allowed path, `#define PATH_MAX 4096` in shell.c. -/
def PATH_MAX : Nat := 4096

/-- Word splitting as performed by the repeated `strtok` calls inside
`tokenize`: the maximal runs of characters not satisfying the delimiter
predicate `p`, in order.  `acc` holds the (partial) current word. -/
def wordsAux (p : Char → Bool) : List Char → List Char → List (List Char)
  | [], acc => if acc = [] then [] else [acc]
  | c :: rest, acc =>
    if p c then
      if acc = [] then wordsAux p rest []
      else acc :: wordsAux p rest []
    else wordsAux p rest (acc ++ [c])

/-- The sequence of words `strtok` yields on input `s` with delimiter set `p`. -/
def wordsOf (p : Char → Bool) (s : List Char) : List (List Char) :=
  wordsAux p s []

/-- The sequence of stores `tokenize` performs into the destination array
`tokens` when the retained words are `ws` and the first free index is `i`:
`tokens[i] = word` for each word in order, then the NUL sentinel at the next
index (shell.c lines 40-48). -/
def writeSeq (i : Nat) : List (List Char) → List (Nat × Option (List Char))
  | [] => [(i, none)]
  | w :: ws => (i, some w) :: writeSeq (i + 1) ws

/-- Result of one `tokenize` call: the tokens stored, the returned status
(0 for success, -1 for overflow), and the store sequence into the
destination array. -/
structure TokResult where
  tokens : List (List Char)
  ret : Int
  writes : List (Nat × Option (List Char))
deriving DecidableEq

/-- Embedding of `tokenize` (shell.c lines 31-52).  `limit` is the value the
caller passed through `token_count`.  The loop stores words while
`token_count < limit - 1`, so it keeps the first `limit - 1` words; it then
NUL-terminates the array and returns 0 exactly when the final count is still
below `limit - 1`, i.e. when the input had fewer than `limit - 1` words. -/
def tokenize (p : Char → Bool) (s : List Char) (limit : Nat) : TokResult :=
  let ws := wordsOf p s
  let toks := ws.take (limit - 1)
  { tokens := toks
    ret := if ws.length < limit - 1 then 0 else -1
    writes := writeSeq 0 toks }

/-- Process-wide environment variables read and written by the shell. -/
structure Env where
  home : Option String
  oldpwd : Option String
  pwd : Option String
deriving DecidableEq

/-- Delimiter predicate for the path splitter inside `cd`: the single
character `/` (shell.c line 64). -/
def slashDelim : Char → Bool := fun c => c = '/'

/-- The `path` array built by `cd` (shell.c lines 89-90): the given path
tokenized on `/` with capacity `BIG_NUM`, so the first `BIG_NUM - 1`
slash-separated segments. -/
def cdSegs (g : String) : List String :=
  (tokenize slashDelim g.toList BIG_NUM).tokens.map fun l => String.mk l

/-- The append loop of `cd` (shell.c lines 117-121): for each retained
segment, `strcat` a `/` and then the segment. -/
def joinSegs (segs : List String) : String :=
  segs.foldl (fun acc sg => acc ++ "/" ++ sg) ""

/-- Test `given_path[0] == '/'` (shell.c line 86). -/
def isRooted (g : String) : Bool :=
  match g.toList with
  | c :: _ => c = '/'
  | [] => false

/-- Path assembly of `cd` (shell.c lines 76-122).  `cur` is the `getcwd`
result.  The value is the string handed to `chdir`; `none` marks the runs
whose C original dereferences a null pointer (a needed but unset `HOME` or
`OLDPWD` fed to `strcat`/`strcpy`, or `path[0]` when the argument has no
segment at all, fed to `strcmp`). -/
def cdNewPath (env : Env) (cur : String) (given : Option String) :
    Option String :=
  match given with
  | none => env.home
  | some g =>
    match cdSegs g with
    | [] => none
    | s0 :: rest =>
      if s0 = "~" then
        env.home.map fun h => h ++ joinSegs ("" :: rest)
      else if s0 = "-" then
        env.oldpwd
      else if isRooted g then
        some ("/" ++ joinSegs (s0 :: rest))
      else
        some (cur ++ joinSegs (s0 :: rest))

/-- Observable outcome of one `cd` invocation. -/
structure CdOutcome where
  /-- The assembled path handed to `chdir`. -/
  target : String
  /-- The working directory after the call. -/
  cwdAfter : String
  /-- Environment after the call. -/
  envAfter : Env
  /-- The successful `setenv` stores, in program order. -/
  updates : List (String × String)
  /-- Whether the `setenv("PWD", ...)` call was reached. -/
  pwdAttempted : Bool
  /-- Whether a diagnostic (`perror`) was emitted. -/
  diag : Bool
deriving DecidableEq

/-- Embedding of the apply-and-bookkeep part of `cd` (shell.c lines
126-157).  `osChdir` is the `chdir` oracle: `some d` means the call
succeeds and the process working directory becomes `d`; `none` means it
fails with an `errno`.  `setOldOk` and `setPwdOk` are the success of the
two `setenv` calls.  The structure mirrors the nested if-else of the
source: on `chdir` failure only `perror` runs; on success `OLDPWD` is set
to the previous directory, and only if that store succeeded is `PWD` set
to the assembled path. -/
def cdRun (env : Env) (cur : String) (given : Option String)
    (osChdir : String → Option String) (setOldOk setPwdOk : Bool) :
    Option CdOutcome :=
  (cdNewPath env cur given).map fun np =>
    match osChdir np with
    | none =>
      { target := np, cwdAfter := cur, envAfter := env, updates := [],
        pwdAttempted := false, diag := true }
    | some d =>
      if setOldOk then
        if setPwdOk then
          { target := np, cwdAfter := d,
            envAfter := { env with oldpwd := some cur, pwd := some np },
            updates := [("OLDPWD", cur), ("PWD", np)],
            pwdAttempted := true, diag := false }
        else
          { target := np, cwdAfter := d,
            envAfter := { env with oldpwd := some cur },
            updates := [("OLDPWD", cur)],
            pwdAttempted := true, diag := true }
      else
        { target := np, cwdAfter := d, envAfter := env, updates := [],
          pwdAttempted := false, diag := true }

/-- Delimiter set of `main`, `char delimiter[] = " \n"` (shell.c line 172). -/
def mainDelims : Char → Bool := fun c => c = ' ' || c = '\n'

/-- The argument vector `main` works with after the `tokenize` call
(shell.c lines 222-228): on overflow the line is treated as empty. -/
def mainTokens (line : String) : List String :=
  let r := tokenize mainDelims line.toList BIG_NUM
  if r.ret = 0 then r.tokens.map (fun l => String.mk l) else []

/-- What the dispatch chain of `main` decides to do with one token vector. -/
inductive Action where
  | exitShell : Action
  | noop : Action
  | pathTooLong : Action
  | cdCall : Option String → Action
  | launch : List String → Action
deriving DecidableEq

/-- The dispatch chain of `main` (shell.c lines 235-253): empty vector is a
no-op; `exit` terminates; `cd` with an over-long second token is rejected;
otherwise `cd` is invoked on `command_args[1]` alone (the NUL sentinel,
i.e. `none`, when there is no second token); any other first token launches
the vector as an external command.  The length guard compares `strlen`
against `PATH_MAX`; tokens here are ASCII so character count and byte count
agree. -/
def dispatch : List String → Action
  | [] => Action.noop
  | cmd :: rest =>
    if cmd = "exit" then Action.exitShell
    else if cmd = "cd" then
      match rest with
      | [] => Action.cdCall none
      | a :: _ =>
        if PATH_MAX < a.length then Action.pathTooLong
        else Action.cdCall (some a)
    else Action.launch (cmd :: rest)

/-- The NUL character written by `strtok` over consumed delimiters. -/
def NUL : Char := Char.ofNat 0

/-- The input buffer after `tokenize` has run `strtok` over it: each
delimiter that terminates a token (i.e. directly follows a token character)
is overwritten with NUL; other delimiters are left in place.  `prevTok`
records whether the previous character was a token character. -/
def strtokBuf (p : Char → Bool) : List Char → Bool → List Char
  | [], _ => []
  | c :: rest, prevTok =>
    if p c then (if prevTok then NUL else c) :: strtokBuf p rest false
    else c :: strtokBuf p rest true

/-- Start offsets of the tokens inside the original buffer. -/
def tokenStartsAux (p : Char → Bool) : List Char → Nat → Bool → List Nat
  | [], _, _ => []
  | c :: rest, i, prevTok =>
    if p c then tokenStartsAux p rest (i + 1) false
    else if prevTok then tokenStartsAux p rest (i + 1) true
    else i :: tokenStartsAux p rest (i + 1) true

/-- Start offsets of all tokens of line `s`. -/
def tokenStarts (p : Char → Bool) (s : List Char) : List Nat :=
  tokenStartsAux p s 0 false

/-- `strlen` of the C string starting at offset `i` of buffer `buf`. -/
def strlenFrom (buf : List Char) (i : Nat) : Nat :=
  ((buf.drop i).takeWhile fun c => c != NUL).length

/-- The parent-side wait decision of `main` (shell.c lines 303-311):
`final_arg` points at the last stored token inside the tokenized buffer and
the parent waits exactly when `final_arg[strlen(final_arg - 1)] != '&'`.
The buffer is the getline line after `strtok` mutation plus its terminating
NUL.  The result is `none` where the C expression reads outside the buffer
(last token starting at offset 0, or the computed index past the end);
otherwise `some true` means the parent waits, `some false` means it prints
the job notice instead. -/
def parentWaits (line : List Char) : Option Bool :=
  let buf := strtokBuf mainDelims line false ++ [NUL]
  match (tokenStarts mainDelims line).getLast? with
  | none => none
  | some pstart =>
    if pstart = 0 then none
    else
      match buf.get? (pstart + strlenFrom buf (pstart - 1)) with
      | none => none
      | some c => some (c != '&')

/-! ## Theorems -/

/-- Every index stored by `writeSeq i ws` is at most `i + ws.length`. -/
theorem writeSeq_index_le (i : Nat) (ws : List (List Char)) :
    ∀ x ∈ writeSeq i ws, x.1 ≤ i + ws.length := by
  induction ws generalizing i with
  | nil => simp [writeSeq]
  | cons w ws ih =>
    intro x hx
    simp only [writeSeq, List.mem_cons] at hx
    rcases hx with h | h
    · subst h; simp
    · have := ih (i + 1) x h
      simp [List.length_cons] at this ⊢
      omega

/-- The last store of `writeSeq i ws` is the sentinel at index `i + ws.length`. -/
theorem writeSeq_sentinel (i : Nat) (ws : List (List Char)) :
    (i + ws.length, (none : Option (List Char))) ∈ writeSeq i ws := by
  induction ws generalizing i with
  | nil => simp [writeSeq]
  | cons w ws ih =>
    simp only [writeSeq, List.mem_cons, List.length_cons]
    right
    have := ih (i + 1)
    have harith : i + (ws.length + 1) = (i + 1) + ws.length := by omega
    rw [harith]
    exact this

/-- Claim C4: for every input whose word count N is below the capacity,
`tokenize` stores exactly the N source words, in the original order, at
indices 0 through N-1, and stores the NUL sentinel at index N; in particular
an empty or all-delimiter input yields zero tokens and the sentinel at 0. -/
theorem tokenize_exact_below_capacity (p : Char → Bool) (s : List Char)
    (limit : Nat) (h : (wordsOf p s).length < limit) :
    (tokenize p s limit).tokens = wordsOf p s ∧
    (tokenize p s limit).writes = writeSeq 0 (wordsOf p s) ∧
    ((wordsOf p s).length, (none : Option (List Char))) ∈
      (tokenize p s limit).writes := by
  have htake : (wordsOf p s).take (limit - 1) = wordsOf p s := by
    apply List.take_of_length_le
    omega
  refine ⟨?_, ?_, ?_⟩
  · simp [tokenize, htake]
  · simp [tokenize, htake]
  · simp only [tokenize, htake]
    have := writeSeq_sentinel 0 (wordsOf p s)
    simpa using this

/-- Witness for `tokenize_exact_below_capacity` at the line "a b" with
capacity 8 and blank-or-newline delimiters. -/
theorem tokenize_exact_below_capacity_witness :
    (tokenize (fun c => c = ' ' || c = '\n') ("a b".toList) 8).tokens =
      wordsOf (fun c => c = ' ' || c = '\n') ("a b".toList) ∧
    (tokenize (fun c => c = ' ' || c = '\n') ("a b".toList) 8).writes =
      writeSeq 0 (wordsOf (fun c => c = ' ' || c = '\n') ("a b".toList)) ∧
    ((wordsOf (fun c => c = ' ' || c = '\n') ("a b".toList)).length,
      (none : Option (List Char))) ∈
      (tokenize (fun c => c = ' ' || c = '\n') ("a b".toList) 8).writes :=
  tokenize_exact_below_capacity (fun c => c = ' ' || c = '\n')
    ("a b".toList) 8 (by decide)

/-- Claim C3 (counterexample): the claim says overflow is reported only when
the input has at least `capacity` words.  With capacity 3 the input "a b"
has 2 words, fewer than the capacity, yet `tokenize` returns -1. -/
theorem tokenize_overflow_counterexample :
    (wordsOf (fun c => c = ' ' || c = '\n') ("a b".toList)).length = 2 ∧
    (2 : Nat) < 3 ∧
    (tokenize (fun c => c = ' ' || c = '\n') ("a b".toList) 3).ret = -1 := by
  refine ⟨by decide, by decide, by decide⟩

/-- Claim C3 (amended): `tokenize` reports overflow (-1) exactly when the
input has at least `capacity - 1` words, i.e. when the stored count reaches
the truncation bound `capacity - 1`; on overflow it stores exactly
`capacity - 1` tokens; and it never writes at an index at or past the
supplied capacity. -/
theorem tokenize_overflow_amended (p : Char → Bool) (s : List Char)
    (limit : Nat) (h : 1 ≤ limit) :
    ((tokenize p s limit).ret = -1 ↔ limit - 1 ≤ (wordsOf p s).length) ∧
    ((tokenize p s limit).ret = -1 →
      (tokenize p s limit).tokens.length = limit - 1) ∧
    (∀ x ∈ (tokenize p s limit).writes, x.1 < limit) := by
  refine ⟨?_, ?_, ?_⟩
  · simp only [tokenize]
    constructor
    · intro hret
      by_contra hlt
      simp [Nat.lt_of_not_le hlt] at hret
    · intro hge
      have : ¬ (wordsOf p s).length < limit - 1 := by omega
      simp [this]
  · intro hret
    simp only [tokenize] at hret ⊢
    have : ¬ (wordsOf p s).length < limit - 1 := by
      intro hlt
      simp [hlt] at hret
    simp only [List.length_take]
    omega
  · intro x hx
    simp only [tokenize] at hx
    have := writeSeq_index_le 0 ((wordsOf p s).take (limit - 1)) x hx
    have hlen : ((wordsOf p s).take (limit - 1)).length ≤ limit - 1 := by
      simp [List.length_take]
    omega

/-- Witness for `tokenize_overflow_amended` at the line "a b c d" with
capacity 3: overflow is reported and exactly 2 tokens are kept. -/
theorem tokenize_overflow_amended_witness :
    ((tokenize (fun c => c = ' ' || c = '\n') ("a b c d".toList) 3).ret = -1 ↔
      2 ≤ (wordsOf (fun c => c = ' ' || c = '\n') ("a b c d".toList)).length) ∧
    ((tokenize (fun c => c = ' ' || c = '\n') ("a b c d".toList) 3).ret = -1 →
      (tokenize (fun c => c = ' ' || c = '\n') ("a b c d".toList) 3).tokens.length = 2) ∧
    (∀ x ∈ (tokenize (fun c => c = ' ' || c = '\n') ("a b c d".toList) 3).writes,
      x.1 < 3) :=
  tokenize_overflow_amended (fun c => c = ' ' || c = '\n')
    ("a b c d".toList) 3 (by decide)

/-- Claim C1 (counterexample): with the argument `/tmp` the assembled path
is `//tmp` (root anchor, then a separator before the segment), so on
success `PWD` is set to `//tmp`, not to the string `/tmp` the claim
states. -/
theorem cd_tmp_pwd_counterexample :
    (cdRun ⟨some "/home/u", none, some "/home/u"⟩ "/home/u" (some "/tmp")
        (fun s => if s = "//tmp" then some "/tmp" else none) true true).map
      (fun o => o.envAfter.pwd) = some (some "//tmp") ∧
    ("//tmp" : String) ≠ "/tmp" := by
  refine ⟨by decide, by decide⟩

/-- Claim C1 (amended): for the line "cd /tmp" entered in `/home/u`,
dispatch hands exactly `/tmp` to the handler, the handler assembles and
enters `//tmp` (which the OS resolves to the directory `/tmp`), `OLDPWD`
becomes `/home/u`, and `PWD` becomes the assembled string `//tmp`. -/
theorem cd_tmp_amended (env : Env) (osChdir : String → Option String)
    (h : osChdir "//tmp" = some "/tmp") :
    mainTokens "cd /tmp\n" = ["cd", "/tmp"] ∧
    dispatch (mainTokens "cd /tmp\n") = Action.cdCall (some "/tmp") ∧
    cdRun env "/home/u" (some "/tmp") osChdir true true =
      some { target := "//tmp", cwdAfter := "/tmp",
             envAfter := { env with oldpwd := some "/home/u", pwd := some "//tmp" },
             updates := [("OLDPWD", "/home/u"), ("PWD", "//tmp")],
             pwdAttempted := true, diag := false } := by
  refine ⟨by decide, by decide, ?_⟩
  have hnp : cdNewPath env "/home/u" (some "/tmp") = some "//tmp" := rfl
  simp [cdRun, hnp, h]

/-- Witness for `cd_tmp_amended` with a concrete environment and a `chdir`
oracle that resolves `//tmp` to `/tmp`. -/
theorem cd_tmp_amended_witness :
    mainTokens "cd /tmp\n" = ["cd", "/tmp"] ∧
    dispatch (mainTokens "cd /tmp\n") = Action.cdCall (some "/tmp") ∧
    cdRun ⟨some "/home/u", none, some "/home/u"⟩ "/home/u" (some "/tmp")
        (fun s => if s = "//tmp" then some "/tmp" else none) true true =
      some { target := "//tmp", cwdAfter := "/tmp",
             envAfter := ⟨some "/home/u", some "/home/u", some "//tmp"⟩,
             updates := [("OLDPWD", "/home/u"), ("PWD", "//tmp")],
             pwdAttempted := true, diag := false } :=
  cd_tmp_amended ⟨some "/home/u", none, some "/home/u"⟩
    (fun s => if s = "//tmp" then some "/tmp" else none) (by decide)

/-- Claim C5 (counterexample): with `HOME = /home/u`, the sole argument `~`
assembles `/home/u/` (the consumed `~` segment still contributes one
separator in the append loop) while no argument assembles `/home/u`; the
two target strings differ, so on success `PWD` differs between the two
invocations. -/
theorem cd_tilde_counterexample :
    cdNewPath ⟨some "/home/u", none, none⟩ "/home/u" (some "~") =
      some "/home/u/" ∧
    cdNewPath ⟨some "/home/u", none, none⟩ "/home/u" none =
      some "/home/u" ∧
    ("/home/u/" : String) ≠ "/home/u" := by
  refine ⟨by decide, by decide, by decide⟩

/-- Claim C5 (amended): both `cd ~` and `cd` with no argument anchor at the
value of `HOME` with the `~` segment consumed, but `cd ~` appends one
trailing separator: it assembles `HOME ++ "/"` while the no-argument form
assembles `HOME`, so the two targets agree only up to that trailing
slash. -/
theorem cd_tilde_amended (env : Env) (cur hm : String)
    (hh : env.home = some hm) :
    cdNewPath env cur (some "~") = some (hm ++ "/") ∧
    cdNewPath env cur none = some hm := by
  constructor
  · have hseg : cdSegs "~" = ["~"] := by decide
    have hjoin : joinSegs [""] = "/" := by decide
    simp [cdNewPath, hseg, hjoin, hh]
  · simp [cdNewPath, hh]

/-- Witness for `cd_tilde_amended` with `HOME = /home/u`. -/
theorem cd_tilde_amended_witness :
    cdNewPath ⟨some "/home/u", none, none⟩ "/cur" (some "~") =
      some ("/home/u" ++ "/") ∧
    cdNewPath ⟨some "/home/u", none, none⟩ "/cur" none = some "/home/u" :=
  cd_tilde_amended ⟨some "/home/u", none, none⟩ "/cur" "/home/u" rfl

/-- Claim C6: when the OS-level directory change fails, `cd` emits a
diagnostic and stops: the environment is untouched (no `setenv` is even
attempted), and the working directory stays what it was. -/
theorem cd_failure_keeps_state (env : Env) (cur : String)
    (given : Option String) (osChdir : String → Option String)
    (so sp : Bool) (np : String)
    (hnp : cdNewPath env cur given = some np) (hfail : osChdir np = none) :
    cdRun env cur given osChdir so sp =
      some { target := np, cwdAfter := cur, envAfter := env, updates := [],
             pwdAttempted := false, diag := true } := by
  simp [cdRun, hnp, hfail]

/-- Witness for `cd_failure_keeps_state`: `cd nope` from `/x` with a
`chdir` that always fails. -/
theorem cd_failure_keeps_state_witness :
    cdRun ⟨some "/h", some "/o", some "/x"⟩ "/x" (some "nope")
        (fun _ => none) true true =
      some { target := "/x/nope", cwdAfter := "/x",
             envAfter := ⟨some "/h", some "/o", some "/x"⟩, updates := [],
             pwdAttempted := false, diag := true } :=
  cd_failure_keeps_state ⟨some "/h", some "/o", some "/x"⟩ "/x"
    (some "nope") (fun _ => none) true true "/x/nope" (by decide) rfl

/-- Claim C7: a successful `cd a/b` from `/x` anchors at the current
directory, assembles `/x/a/b`, enters it, then sets `OLDPWD` to the
previous directory `/x` and afterwards `PWD` to the assembled `/x/a/b`
(the update list records the two stores in that order). -/
theorem cd_relative_success (env : Env) (osChdir : String → Option String)
    (h : osChdir "/x/a/b" = some "/x/a/b") :
    cdRun env "/x" (some "a/b") osChdir true true =
      some { target := "/x/a/b", cwdAfter := "/x/a/b",
             envAfter := { env with oldpwd := some "/x", pwd := some "/x/a/b" },
             updates := [("OLDPWD", "/x"), ("PWD", "/x/a/b")],
             pwdAttempted := true, diag := false } := by
  have hnp : cdNewPath env "/x" (some "a/b") = some "/x/a/b" := rfl
  simp [cdRun, hnp, h]

/-- Witness for `cd_relative_success` with a concrete environment and an
oracle accepting `/x/a/b`. -/
theorem cd_relative_success_witness :
    cdRun ⟨some "/h", none, some "/x"⟩ "/x" (some "a/b")
        (fun s => if s = "/x/a/b" then some "/x/a/b" else none) true true =
      some { target := "/x/a/b", cwdAfter := "/x/a/b",
             envAfter := ⟨some "/h", some "/x", some "/x/a/b"⟩,
             updates := [("OLDPWD", "/x"), ("PWD", "/x/a/b")],
             pwdAttempted := true, diag := false } :=
  cd_relative_success ⟨some "/h", none, some "/x"⟩
    (fun s => if s = "/x/a/b" then some "/x/a/b" else none) (by decide)

/-- Claim C8: for a line whose first token is `cd` and whose second token
passes the length guard, dispatch invokes the handler on the second token
alone; the tokens after it (a trailing `&` included) do not influence the
decision. -/
theorem dispatch_cd_second_token_only (a : String) (rest rest2 : List String)
    (h : a.length ≤ PATH_MAX) :
    dispatch ("cd" :: a :: rest) = Action.cdCall (some a) ∧
    dispatch ("cd" :: a :: rest) = dispatch ("cd" :: a :: rest2) := by
  have h1 : ¬ PATH_MAX < a.length := by omega
  constructor
  · simp [dispatch, h1]
  · simp [dispatch, h1]

/-- Witness for `dispatch_cd_second_token_only`: `cd /tmp x &` behaves as
`cd /tmp`. -/
theorem dispatch_cd_second_token_only_witness :
    dispatch ["cd", "/tmp", "x", "&"] = Action.cdCall (some "/tmp") ∧
    dispatch ["cd", "/tmp", "x", "&"] = dispatch ["cd", "/tmp"] :=
  dispatch_cd_second_token_only "/tmp" ["x", "&"] [] (by decide)

/-- Claim C9: the handler dereferences `getenv` results without a null
check, so a set `HOME` makes the null branch unreachable for the
no-argument and `~`-first-segment forms (the assembly is then defined),
a set `OLDPWD` does the same for the `-` form, and with the required
variable absent the run is undefined (`none`). -/
theorem cd_env_preconditions :
    (∀ env : Env, ∀ cur hm, env.home = some hm →
        cdNewPath env cur none = some hm) ∧
    (∀ env : Env, ∀ cur, env.home = none →
        cdNewPath env cur none = none) ∧
    (∀ env : Env, ∀ cur g, (cdSegs g).head? = some "~" →
        env.home.isSome → (cdNewPath env cur (some g)).isSome) ∧
    (∀ env : Env, ∀ cur g, (cdSegs g).head? = some "~" →
        env.home = none → cdNewPath env cur (some g) = none) ∧
    (∀ env : Env, ∀ cur od, env.oldpwd = some od →
        cdNewPath env cur (some "-") = some od) ∧
    (∀ env : Env, ∀ cur, env.oldpwd = none →
        cdNewPath env cur (some "-") = none) := by
  have hdash : cdSegs "-" = ["-"] := by decide
  refine ⟨?_, ?_, ?_, ?_, ?_, ?_⟩
  · intro env cur hm hh
    simp [cdNewPath, hh]
  · intro env cur hh
    simp [cdNewPath, hh]
  · intro env cur g hseg hh
    rcases hcs : cdSegs g with _ | ⟨s0, rest⟩
    · rw [hcs] at hseg; simp at hseg
    · rw [hcs] at hseg
      simp only [List.head?_cons, Option.some.injEq] at hseg
      subst hseg
      rcases hhome : env.home with _ | hv
      · rw [hhome] at hh; simp at hh
      · simp [cdNewPath, hcs, hhome]
  · intro env cur g hseg hh
    rcases hcs : cdSegs g with _ | ⟨s0, rest⟩
    · rw [hcs] at hseg; simp at hseg
    · rw [hcs] at hseg
      simp only [List.head?_cons, Option.some.injEq] at hseg
      subst hseg
      simp [cdNewPath, hcs, hh]
  · intro env cur od hh
    simp [cdNewPath, hdash, hh]
  · intro env cur hh
    simp [cdNewPath, hdash, hh]

/-- Witness for `cd_env_preconditions`: with `HOME = /h` the no-argument
form assembles `/h`. -/
theorem cd_env_preconditions_witness :
    cdNewPath ⟨some "/h", none, none⟩ "/c" none = some "/h" :=
  cd_env_preconditions.1 ⟨some "/h", none, none⟩ "/c" "/h" rfl

/-- Claim C10: the `PWD` store is attempted only after the `OLDPWD` store
succeeded.  If the `OLDPWD` store fails, `PWD` (and `OLDPWD`) stay
unchanged, the `PWD` call is never reached, and the failure is reported;
whenever `PWD` appears among the stores, the `OLDPWD` store preceded it;
and the partial state with `OLDPWD` updated but `PWD` unchanged is
reachable (here: `setenv("PWD", ...)` failing after a successful
`setenv("OLDPWD", ...)`). -/
theorem cd_env_update_order :
    (∀ env : Env, ∀ cur given osChdir sp, ∀ o : CdOutcome,
        cdRun env cur given osChdir false sp = some o →
        o.pwdAttempted = false ∧ o.envAfter.pwd = env.pwd ∧
        o.envAfter.oldpwd = env.oldpwd ∧ o.diag = true) ∧
    (∀ env : Env, ∀ cur given osChdir so sp, ∀ o : CdOutcome, ∀ v,
        cdRun env cur given osChdir so sp = some o →
        ("PWD", v) ∈ o.updates →
        o.updates = [("OLDPWD", cur), ("PWD", v)] ∧
        o.envAfter.oldpwd = some cur) ∧
    (cdRun ⟨none, none, some "/x"⟩ "/x" (some "y")
        (fun s => if s = "/x/y" then some "/x/y" else none) true false =
      some { target := "/x/y", cwdAfter := "/x/y",
             envAfter := ⟨none, some "/x", some "/x"⟩,
             updates := [("OLDPWD", "/x")], pwdAttempted := true,
             diag := true }) := by
  refine ⟨?_, ?_, by decide⟩
  · intro env cur given osChdir sp o ho
    rcases hnp : cdNewPath env cur given with _ | np
    · rw [cdRun, hnp] at ho
      simp at ho
    · rw [cdRun, hnp] at ho
      simp only [Option.map_some'] at ho
      rcases hos : osChdir np with _ | d
      · rw [hos] at ho
        simp only [Option.some.injEq] at ho
        subst ho
        simp
      · rw [hos] at ho
        simp only [Bool.false_eq_true, if_false, Option.some.injEq] at ho
        subst ho
        simp
  · intro env cur given osChdir so sp o v ho hmem
    rcases hnp : cdNewPath env cur given with _ | np
    · rw [cdRun, hnp] at ho
      simp at ho
    · rw [cdRun, hnp] at ho
      simp only [Option.map_some'] at ho
      rcases hos : osChdir np with _ | d
      · rw [hos] at ho
        simp only [Option.some.injEq] at ho
        subst ho
        simp at hmem
      · rw [hos] at ho
        rcases so with _ | _
        · simp only [Bool.false_eq_true, if_false, Option.some.injEq] at ho
          subst ho
          simp at hmem
        · rcases sp with _ | _
          · simp only [if_true, Bool.false_eq_true, if_false,
              Option.some.injEq] at ho
            subst ho
            simp at hmem
          · simp only [if_true, Option.some.injEq] at ho
            subst ho
            simp only [List.mem_cons, List.mem_singleton,
              List.not_mem_nil, or_false] at hmem
            rcases hmem with hmem | hmem
            · have hfst : ("PWD" : String) = "OLDPWD" :=
                congrArg Prod.fst hmem
              exact absurd hfst (by decide)
            · have hv : v = np := congrArg Prod.snd hmem
              subst hv
              simp

/-- Witness for `cd_env_update_order`: the first conjunct applied to a run
whose `OLDPWD` store fails after a successful directory change. -/
theorem cd_env_update_order_witness :
    ({ target := "/x/y", cwdAfter := "/x/y",
       envAfter := (⟨none, none, some "/x"⟩ : Env), updates := [],
       pwdAttempted := false, diag := true } : CdOutcome).pwdAttempted =
        false ∧
    ({ target := "/x/y", cwdAfter := "/x/y",
       envAfter := (⟨none, none, some "/x"⟩ : Env), updates := [],
       pwdAttempted := false, diag := true } : CdOutcome).envAfter.pwd =
        (⟨none, none, some "/x"⟩ : Env).pwd ∧
    ({ target := "/x/y", cwdAfter := "/x/y",
       envAfter := (⟨none, none, some "/x"⟩ : Env), updates := [],
       pwdAttempted := false, diag := true } : CdOutcome).envAfter.oldpwd =
        (⟨none, none, some "/x"⟩ : Env).oldpwd ∧
    ({ target := "/x/y", cwdAfter := "/x/y",
       envAfter := (⟨none, none, some "/x"⟩ : Env), updates := [],
       pwdAttempted := false, diag := true } : CdOutcome).diag = true :=
  cd_env_update_order.1 ⟨none, none, some "/x"⟩ "/x" (some "y")
    (fun s => if s = "/x/y" then some "/x/y" else none) true
    { target := "/x/y", cwdAfter := "/x/y",
      envAfter := ⟨none, none, some "/x"⟩, updates := [],
      pwdAttempted := false, diag := true } (by decide)

/-- Claim C2: the parent does not reuse a background flag captured at trim
time; it re-derives the decision from the mutated buffer with
`final_arg[strlen(final_arg - 1)]`.  On the line "ls  &" (two blanks) the
last token is exactly `&`, yet the expression indexes past the token and
reads the NUL after it, so the parent waits and prints no job notice; on
"ls &" (one blank) the same expression happens to read the `&` itself and
the parent does not wait.  The decision is therefore not the function of
the original last token that the claim states. -/
theorem background_check_code_bug :
    (wordsOf mainDelims ("ls  &\n".toList)).getLast? = some ['&'] ∧
    parentWaits ("ls  &\n".toList) = some true ∧
    (wordsOf mainDelims ("ls &\n".toList)).getLast? = some ['&'] ∧
    parentWaits ("ls &\n".toList) = some false := by
  refine ⟨by decide, by decide, by decide, by decide⟩

end Shell
